import Mathlib

/-!
Verification development for the PyCropPDF coordinate-transform and
page-editing pipeline.

The source is embedded shallowly:

* `_translate_rect_to_pdf_coords` (workers.py) becomes
  `translateRectToPdfCoords`, with scene coordinates in `ℚ` (the source
  uses Python floats; all the arithmetic here is exact) and page / canvas
  pixel dimensions in `ℤ` (the source obtains them as `int` image sizes).
  Python's floor division `//` is `Int.fdiv`.
* The canvas-dimension computations of `RenderAllPagesWorker.run`,
  `SaveWorker.run` (workers.py) and `updateSplitViewOverlay`
  (main_window.py) become `renderWorkerMaxDims`, `saveWorkerMaxDims` and
  `compositorCanvasDims`.
* The stateful editor methods of `PDFViewer` (main_window.py) become
  transition functions on an explicit `ViewerState`.  A document is its
  list of pages; serialisation (`tobytes` / `fitz.open`) is modelled as
  the identity on that list, and a page's derotation matrix is abstracted
  away (no claim below depends on it): a whiteout draw records the visual
  rectangle on the page.  Dialog boxes become an explicit message list in
  the result of each transition function.
-/

/-- A rectangle in overlay-scene pixel coordinates (QRectF: x, y, width,
height). -/
structure OverlayRect where
  x : ℚ
  y : ℚ
  w : ℚ
  h : ℚ
deriving DecidableEq, Repr

/-- A fitz.Rect: corner coordinates in PDF visual space. -/
structure FitzRect where
  x0 : ℚ
  y0 : ℚ
  x1 : ℚ
  y1 : ℚ
deriving DecidableEq, Repr

/-- fitz.Rect.width, namely x1 - x0. -/
def FitzRect.width (r : FitzRect) : ℚ := r.x1 - r.x0

/-- fitz.Rect.height, namely y1 - y0. -/
def FitzRect.height (r : FitzRect) : ℚ := r.y1 - r.y0

/-- The view mode of the viewer: the string 'all' or 'odd_even' in the
source. -/
inductive ViewMode where
  | all : ViewMode
  | oddEven : ViewMode
deriving DecidableEq, Repr

/-- Python's floor division (max_dim - page_dim) // 2 used for the
centering offset. -/
def centerOffset (maxDim pageDim : ℤ) : ℤ := (maxDim - pageDim).fdiv 2

/-- ref_rect.width / page_width if page_width > 0 else 0
(workers.py lines 40-41). -/
def scaleFactor (refLen : ℚ) (pageLen : ℤ) : ℚ :=
  if 0 < pageLen then refLen / (pageLen : ℚ) else 0

/-- max(lo, min(v, hi)) -- the clamping pattern of workers.py
lines 48-51. -/
def clampQ (lo v hi : ℚ) : ℚ := max lo (min v hi)

/-- Choice of the canvas dimensions used for translation of a given page
(workers.py lines 25-32): 'all' uses the shared max dims, otherwise page
index of even parity (first page, called odd in the UI) uses the odd-group
dims and the rest the even-group dims. -/
def selectCanvasDims (viewMode : ViewMode) (pageNum : ℕ)
    (maxDims maxOddDims maxEvenDims : ℤ × ℤ) : ℤ × ℤ :=
  match viewMode with
  | .all => maxDims
  | .oddEven => if pageNum % 2 = 0 then maxOddDims else maxEvenDims

/-- Shallow embedding of `_translate_rect_to_pdf_coords` (workers.py
lines 20-52): translate a scene rectangle to a fitz.Rect in PDF visual
coordinates, centering offset first, then per-axis scaling, then clamping
into the page's own rectangle. -/
def translateRectToPdfCoords (sceneRect : OverlayRect) (pageDims : ℤ × ℤ)
    (pdfPageRect : FitzRect) (pageNum : ℕ) (viewMode : ViewMode)
    (maxDims maxOddDims maxEvenDims : ℤ × ℤ) : FitzRect :=
  let pw := pageDims.1
  let ph := pageDims.2
  let cur := selectCanvasDims viewMode pageNum maxDims maxOddDims maxEvenDims
  let xOff : ℤ := centerOffset cur.1 pw
  let yOff : ℤ := centerOffset cur.2 ph
  let sx := scaleFactor pdfPageRect.width pw
  let sy := scaleFactor pdfPageRect.height ph
  let cx0 := (sceneRect.x - (xOff : ℚ)) * sx + pdfPageRect.x0
  let cy0 := (sceneRect.y - (yOff : ℚ)) * sy + pdfPageRect.y0
  let cx1 := cx0 + sceneRect.w * sx
  let cy1 := cy0 + sceneRect.h * sy
  { x0 := clampQ pdfPageRect.x0 cx0 pdfPageRect.x1
    y0 := clampQ pdfPageRect.y0 cy0 pdfPageRect.y1
    x1 := clampQ pdfPageRect.x0 cx1 pdfPageRect.x1
    y1 := clampQ pdfPageRect.y0 cy1 pdfPageRect.y1 }

lemma le_clampQ (lo v hi : ℚ) : lo ≤ clampQ lo v hi := le_max_left _ _

lemma clampQ_le (v : ℚ) (h : lo ≤ hi) : clampQ lo v hi ≤ hi :=
  max_le h (min_le_right _ _)

lemma clampQ_mono (lo hi : ℚ) (h : a ≤ b) : clampQ lo a hi ≤ clampQ lo b hi :=
  max_le_max le_rfl (min_le_min h le_rfl)

lemma clampQ_eq_self (h1 : lo ≤ v) (h2 : v ≤ hi) : clampQ lo v hi = v := by
  rw [clampQ, min_eq_left h2, max_eq_right h1]

lemma scaleFactor_nonneg (h : 0 ≤ refLen) (p : ℤ) :
    0 ≤ scaleFactor refLen p := by
  rw [scaleFactor]
  split
  · positivity
  · exact le_rfl

/-- C1: the coordinate transformer subtracts the floor-division centering
offset, scales by visualDim / pageDim per axis and adds the visual
origin; concretely, a 100x150 page on a 120x150 canvas with visual rect
(0,0)-(300,450) maps the overlay rectangle (x=20, y=20, w=40, h=40) to
the PdfRect (x0=30, y0=60, x1=150, y1=180). -/
theorem c1_translate_scenario :
    translateRectToPdfCoords ⟨20, 20, 40, 40⟩ (100, 150) ⟨0, 0, 300, 450⟩
      0 ViewMode.all (120, 150) (0, 0) (0, 0) = ⟨30, 60, 150, 180⟩ := by
  norm_num [translateRectToPdfCoords, selectCanvasDims, centerOffset,
    scaleFactor, clampQ, FitzRect.width, FitzRect.height, Int.fdiv,
    min_def, max_def]

/-- C4: the returned rectangle has all four coordinates clamped into the
page's visual bounding box and satisfies x0 ≤ x1 and y0 ≤ y1, for any
normalized input rectangle (non-negative width and height) and any valid
page box (x0 ≤ x1, y0 ≤ y1). -/
theorem c4_translate_clamped_ordered (sceneRect : OverlayRect)
    (pageDims : ℤ × ℤ) (ref : FitzRect) (pageNum : ℕ) (vm : ViewMode)
    (maxDims maxOddDims maxEvenDims : ℤ × ℤ)
    (hw : 0 ≤ sceneRect.w) (hh : 0 ≤ sceneRect.h)
    (hx : ref.x0 ≤ ref.x1) (hy : ref.y0 ≤ ref.y1) :
    let r := translateRectToPdfCoords sceneRect pageDims ref pageNum vm
      maxDims maxOddDims maxEvenDims
    (ref.x0 ≤ r.x0 ∧ r.x0 ≤ ref.x1) ∧ (ref.x0 ≤ r.x1 ∧ r.x1 ≤ ref.x1) ∧
    (ref.y0 ≤ r.y0 ∧ r.y0 ≤ ref.y1) ∧ (ref.y0 ≤ r.y1 ∧ r.y1 ≤ ref.y1) ∧
    r.x0 ≤ r.x1 ∧ r.y0 ≤ r.y1 := by
  intro r
  have hsx : 0 ≤ scaleFactor ref.width pageDims.1 :=
    scaleFactor_nonneg (sub_nonneg.mpr hx) _
  have hsy : 0 ≤ scaleFactor ref.height pageDims.2 :=
    scaleFactor_nonneg (sub_nonneg.mpr hy) _
  refine ⟨⟨le_clampQ _ _ _, clampQ_le _ hx⟩, ⟨le_clampQ _ _ _, clampQ_le _ hx⟩,
    ⟨le_clampQ _ _ _, clampQ_le _ hy⟩, ⟨le_clampQ _ _ _, clampQ_le _ hy⟩,
    clampQ_mono _ _ (le_add_of_nonneg_right (mul_nonneg hw hsx)),
    clampQ_mono _ _ (le_add_of_nonneg_right (mul_nonneg hh hsy))⟩

/-- C8: for a degenerate page (pixel width or height 0), the scale factor
is taken to be 0 rather than dividing by zero, and the transformer still
returns a well-defined rectangle: a zero width collapses the x
coordinates to the page box's x0, a zero height collapses the y
coordinates to the page box's y0. -/
theorem c8_degenerate_page (sceneRect : OverlayRect) (pw ph : ℤ)
    (ref : FitzRect) (pageNum : ℕ) (vm : ViewMode)
    (maxDims maxOddDims maxEvenDims : ℤ × ℤ)
    (hx : ref.x0 ≤ ref.x1) (hy : ref.y0 ≤ ref.y1) :
    scaleFactor ref.width 0 = 0 ∧ scaleFactor ref.height 0 = 0 ∧
    ((translateRectToPdfCoords sceneRect (0, ph) ref pageNum vm
        maxDims maxOddDims maxEvenDims).x0 = ref.x0 ∧
      (translateRectToPdfCoords sceneRect (0, ph) ref pageNum vm
        maxDims maxOddDims maxEvenDims).x1 = ref.x0) ∧
    ((translateRectToPdfCoords sceneRect (pw, 0) ref pageNum vm
        maxDims maxOddDims maxEvenDims).y0 = ref.y0 ∧
      (translateRectToPdfCoords sceneRect (pw, 0) ref pageNum vm
        maxDims maxOddDims maxEvenDims).y1 = ref.y0) := by
  have hs0 : ∀ len : ℚ, scaleFactor len 0 = 0 := by
    intro len
    simp [scaleFactor]
  refine ⟨hs0 _, hs0 _, ⟨?_, ?_⟩, ⟨?_, ?_⟩⟩ <;>
    simp [translateRectToPdfCoords, hs0, clampQ_eq_self le_rfl hx,
      clampQ_eq_self le_rfl hy]

/-- The inverse scale-and-offset map of the round-trip law (spec section
8): recover an overlay rectangle from a PDF visual rectangle by undoing
the origin translation, the per-axis scaling and the centering offset of
the transformer.  Stated from the spec; it is the mathematical inverse of
`translateRectToPdfCoords`, not code of the repository. -/
def inverseScaleMap (r : FitzRect) (pageDims : ℤ × ℤ) (ref : FitzRect)
    (canvasDims : ℤ × ℤ) : OverlayRect :=
  let sx := scaleFactor ref.width pageDims.1
  let sy := scaleFactor ref.height pageDims.2
  { x := (r.x0 - ref.x0) / sx + (centerOffset canvasDims.1 pageDims.1 : ℚ)
    y := (r.y0 - ref.y0) / sy + (centerOffset canvasDims.2 pageDims.2 : ℚ)
    w := (r.x1 - r.x0) / sx
    h := (r.y1 - r.y0) / sy }

/-- C3: round-trip law in AllOverlay mode -- for positive page dimensions,
a non-degenerate page visual rect and a normalized overlay rectangle lying
within the page's projected region on the canvas, the transformer followed
by the inverse scale-and-offset map reproduces the overlay rectangle
exactly. -/
theorem c3_roundtrip (sceneRect : OverlayRect) (pw ph maxW maxH : ℤ)
    (ref : FitzRect) (pageNum : ℕ) (maxOddDims maxEvenDims : ℤ × ℤ)
    (hpw : 0 < pw) (hph : 0 < ph)
    (hrw : 0 < ref.width) (hrh : 0 < ref.height)
    (hwnn : 0 ≤ sceneRect.w) (hhnn : 0 ≤ sceneRect.h)
    (hxlo : (centerOffset maxW pw : ℚ) ≤ sceneRect.x)
    (hxhi : sceneRect.x + sceneRect.w ≤ (centerOffset maxW pw : ℚ) + pw)
    (hylo : (centerOffset maxH ph : ℚ) ≤ sceneRect.y)
    (hyhi : sceneRect.y + sceneRect.h ≤ (centerOffset maxH ph : ℚ) + ph) :
    inverseScaleMap
      (translateRectToPdfCoords sceneRect (pw, ph) ref pageNum ViewMode.all
        (maxW, maxH) maxOddDims maxEvenDims)
      (pw, ph) ref (maxW, maxH) = sceneRect := by
  obtain ⟨x, y, w, h⟩ := sceneRect
  simp only at hwnn hhnn hxlo hxhi hylo hyhi
  have hpwQ : (0 : ℚ) < (pw : ℚ) := by exact_mod_cast hpw
  have hphQ : (0 : ℚ) < (ph : ℚ) := by exact_mod_cast hph
  have hsx : scaleFactor ref.width pw = ref.width / pw := if_pos hpw
  have hsy : scaleFactor ref.height ph = ref.height / ph := if_pos hph
  have hsxpos : 0 < ref.width / (pw : ℚ) := div_pos hrw hpwQ
  have hsypos : 0 < ref.height / (ph : ℚ) := div_pos hrh hphQ
  have hpwkey : (pw : ℚ) * (ref.width / pw) = ref.width := by
    field_simp
  have hphkey : (ph : ℚ) * (ref.height / ph) = ref.height := by
    field_simp
  set xOff : ℚ := (centerOffset maxW pw : ℚ) with hxOff
  set yOff : ℚ := (centerOffset maxH ph : ℚ) with hyOff
  set sx : ℚ := ref.width / pw with hsx'
  set sy : ℚ := ref.height / ph with hsy'
  have hwsx : 0 ≤ w * sx := mul_nonneg hwnn hsxpos.le
  have hhsy : 0 ≤ h * sy := mul_nonneg hhnn hsypos.le
  have hxsx : 0 ≤ (x - xOff) * sx := mul_nonneg (by linarith) hsxpos.le
  have hysy : 0 ≤ (y - yOff) * sy := mul_nonneg (by linarith) hsypos.le
  have hxw : (ref.x0 : ℚ) + ref.width = ref.x1 := by rw [FitzRect.width]; ring
  have hyh : (ref.y0 : ℚ) + ref.height = ref.y1 := by rw [FitzRect.height]; ring
  have hcx0lo : ref.x0 ≤ (x - xOff) * sx + ref.x0 := by linarith
  have hcy0lo : ref.y0 ≤ (y - yOff) * sy + ref.y0 := by linarith
  have hcx1hi : (x - xOff) * sx + ref.x0 + w * sx ≤ ref.x1 := by
    have hb : (x + w - xOff) * sx ≤ (pw : ℚ) * sx :=
      mul_le_mul_of_nonneg_right (by linarith) hsxpos.le
    have hexp : (x - xOff) * sx + w * sx = (x + w - xOff) * sx := by ring
    linarith
  have hcy1hi : (y - yOff) * sy + ref.y0 + h * sy ≤ ref.y1 := by
    have hb : (y + h - yOff) * sy ≤ (ph : ℚ) * sy :=
      mul_le_mul_of_nonneg_right (by linarith) hsypos.le
    have hexp : (y - yOff) * sy + h * sy = (y + h - yOff) * sy := by ring
    linarith
  have hcx0hi : (x - xOff) * sx + ref.x0 ≤ ref.x1 := by linarith
  have hcy0hi : (y - yOff) * sy + ref.y0 ≤ ref.y1 := by linarith
  have hcx1lo : ref.x0 ≤ (x - xOff) * sx + ref.x0 + w * sx := by linarith
  have hcy1lo : ref.y0 ≤ (y - yOff) * sy + ref.y0 + h * sy := by linarith
  simp only [translateRectToPdfCoords, selectCanvasDims, inverseScaleMap,
    hsx, hsy, ← hxOff, ← hyOff, ← hsx', ← hsy']
  rw [clampQ_eq_self hcx0lo hcx0hi, clampQ_eq_self hcy0lo hcy0hi,
    clampQ_eq_self hcx1lo hcx1hi, clampQ_eq_self hcy1lo hcy1hi]
  have hsxne : sx ≠ 0 := ne_of_gt hsxpos
  have hsyne : sy ≠ 0 := ne_of_gt hsypos
  simp only [OverlayRect.mk.injEq]
  refine ⟨?_, ?_, ?_, ?_⟩ <;> field_simp

/-- Python's max over a list, with the source's guard
value_if_nonempty else 0 folded in: models
max(...) if all_page_dims else 0 (workers.py lines 108-109 and
165-166). -/
def pyMaxList (l : List ℤ) : ℤ :=
  match l with
  | [] => 0
  | x :: xs => xs.foldl max x

/-- The pair (max width, max height) over a list of page pixel
dimensions. -/
def batchMaxDims (allPageDims : List (ℤ × ℤ)) : ℤ × ℤ :=
  (pyMaxList (allPageDims.map Prod.fst), pyMaxList (allPageDims.map Prod.snd))

/-- The triple (max_dims, max_odd_dims, max_even_dims) computed by
RenderAllPagesWorker.run (workers.py lines 107-118): each starts as
(0, 0); the mode 'all' fills only max_dims, while odd/even split fills
both group dims with the max over ALL pages. -/
def renderWorkerMaxDims (viewMode : ViewMode) (allPageDims : List (ℤ × ℤ)) :
    (ℤ × ℤ) × (ℤ × ℤ) × (ℤ × ℤ) :=
  let mw := pyMaxList (allPageDims.map Prod.fst)
  let mh := pyMaxList (allPageDims.map Prod.snd)
  match viewMode with
  | .all => ((mw, mh), (0, 0), (0, 0))
  | .oddEven => ((0, 0), (mw, mh), (mw, mh))

/-- The same triple computed by SaveWorker.run (workers.py lines
164-175); the code is duplicated verbatim in the source, so the body is
the same as the render worker's. -/
def saveWorkerMaxDims (viewMode : ViewMode) (allPageDims : List (ℤ × ℤ)) :
    (ℤ × ℤ) × (ℤ × ℤ) × (ℤ × ℤ) :=
  let mw := pyMaxList (allPageDims.map Prod.fst)
  let mh := pyMaxList (allPageDims.map Prod.snd)
  match viewMode with
  | .all => ((mw, mh), (0, 0), (0, 0))
  | .oddEven => ((0, 0), (mw, mh), (mw, mh))

/-- The canvas size used by updateSplitViewOverlay (main_window.py lines
611-623) for BOTH the odd and the even composite images: max over the
dimensions of all pages whose raster is present, or none when no raster
is available (the method returns without compositing). -/
def compositorCanvasDims (images : List (Option (ℤ × ℤ))) :
    Option (ℤ × ℤ) :=
  let validImages := images.filterMap id
  match validImages with
  | [] => none
  | _ => some (pyMaxList (validImages.map Prod.fst),
      pyMaxList (validImages.map Prod.snd))

/-- C2: in OddEvenSplit layout the canvas dimensions used for coordinate
translation of a page of either parity are identical and equal to the max
over ALL pages, in the render path and the save path alike; and the
split-view compositor sizes both the odd and the even canvas by the one
max over all present page rasters. -/
theorem c2_split_canvas_symmetric (allPageDims : List (ℤ × ℤ))
    (i j : ℕ) (images : List (Option (ℤ × ℤ))) :
    (selectCanvasDims ViewMode.oddEven i
        (renderWorkerMaxDims ViewMode.oddEven allPageDims).1
        (renderWorkerMaxDims ViewMode.oddEven allPageDims).2.1
        (renderWorkerMaxDims ViewMode.oddEven allPageDims).2.2 =
      batchMaxDims allPageDims) ∧
    (selectCanvasDims ViewMode.oddEven j
        (saveWorkerMaxDims ViewMode.oddEven allPageDims).1
        (saveWorkerMaxDims ViewMode.oddEven allPageDims).2.1
        (saveWorkerMaxDims ViewMode.oddEven allPageDims).2.2 =
      batchMaxDims allPageDims) ∧
    (images.filterMap id ≠ [] →
      compositorCanvasDims images = some (batchMaxDims (images.filterMap id))) := by
  refine ⟨?_, ?_, ?_⟩
  · rw [selectCanvasDims, renderWorkerMaxDims, batchMaxDims]
    split <;> rfl
  · rw [selectCanvasDims, saveWorkerMaxDims, batchMaxDims]
    split <;> rfl
  · intro hne
    rw [compositorCanvasDims, batchMaxDims]
    match hv : images.filterMap id with
    | [] => exact absurd hv hne
    | d :: ds => rfl

/-- Witness for C2: with two present page rasters of pixel sizes 100x150
and 120x140, the compositor canvas is 120x150 for both parities. -/
theorem c2_split_canvas_symmetric_witness :
    compositorCanvasDims [some (100, 150), some (120, 140)] =
      some (batchMaxDims [((100 : ℤ), (150 : ℤ)), (120, 140)]) := by
  have h := (c2_split_canvas_symmetric [(100, 150), (120, 140)] 0 1
      [some (100, 150), some (120, 140)]).2.2 (by decide)
  simpa using h

/-- The removal loop of deleteSelectedPages (main_window.py lines
919-923): the selected indices, sorted in descending order, are removed
one by one from the live list (document pages, image list and crop-state
dimension list are each popped at the same index in lockstep). -/
def deleteAtDescending (selectedDesc : List ℕ) (l : List α) : List α :=
  selectedDesc.foldl (fun acc p => acc.eraseIdx p) l

/-- The crop-rect remap loop of deleteSelectedPages (main_window.py lines
905-917), one iteration per original page index: deleted indices are
skipped, surviving indices advance the new-index counter, and a surviving
index holding a rect deposits it at the counter's current value. -/
def remapGo (orig : List (ℕ × α)) (deleted : List ℕ) :
    List ℕ → ℕ → List (ℕ × α)
  | [], _ => []
  | i :: rest, c =>
    if i ∈ deleted then remapGo orig deleted rest c
    else
      match orig.lookup i with
      | some r => (c, r) :: remapGo orig deleted rest (c + 1)
      | none => remapGo orig deleted rest (c + 1)

/-- The full remap: iterate the loop over range(len(self.pdf_doc)) with
the counter starting at 0. -/
def remapCropRects (numPages : ℕ) (deleted : List ℕ)
    (orig : List (ℕ × α)) : List (ℕ × α) :=
  remapGo orig deleted (List.range numPages) 0

/-- Count of surviving indices below i: the new index the spec assigns to
a surviving original index i. -/
def survivorCountBelow (deleted : List ℕ) (i : ℕ) : ℕ :=
  ((List.range i).filter (fun j => decide (j ∉ deleted))).length

lemma remapGo_lookup (orig : List (ℕ × α)) (deleted : List ℕ) :
    ∀ (len s c i : ℕ) (r : α), s ≤ i → i < s + len → i ∉ deleted →
      orig.lookup i = some r →
      (remapGo orig deleted (List.range' s len) c).lookup
          (c + ((List.range' s (i - s)).filter
            (fun j => decide (j ∉ deleted))).length) = some r := by
  intro len
  induction len with
  | zero =>
    intro s c i r hsi hlt _ _
    omega
  | succ n ih =>
    intro s c i r hsi hlt hidel hor
    rw [List.range'_succ]
    rcases Nat.eq_or_lt_of_le hsi with heq | hlt'
    · subst heq
      simp only [Nat.sub_self, List.range'_zero, List.filter_nil,
        List.length_nil, Nat.add_zero]
      simp only [remapGo, if_neg hidel, hor]
      simp
    · have hk : i - s = (i - (s + 1)) + 1 := by omega
      rw [hk, List.range'_succ]
      by_cases hs : s ∈ deleted
      · have hcond : (decide (s ∉ deleted)) = false := by simp [hs]
        simp only [List.filter_cons]
        rw [hcond, if_neg (by simp)]
        simp only [remapGo, if_pos hs]
        exact ih (s + 1) c i r (by omega) (by omega) hidel hor
      · have hcond : (decide (s ∉ deleted)) = true := by simp [hs]
        simp only [List.filter_cons]
        rw [hcond, if_pos rfl]
        simp only [List.length_cons]
        cases horig : orig.lookup s with
        | some r0 =>
          simp only [remapGo, if_neg hs, horig]
          have harr : c + (((List.range' (s + 1) (i - (s + 1))).filter
              (fun j => decide (j ∉ deleted))).length + 1) =
              (c + 1) + ((List.range' (s + 1) (i - (s + 1))).filter
                (fun j => decide (j ∉ deleted))).length := by omega
          rw [harr, List.lookup_cons]
          have hne : (((c + 1) + ((List.range' (s + 1) (i - (s + 1))).filter
              (fun j => decide (j ∉ deleted))).length) == c) = false := by
            rw [beq_eq_false_iff_ne]
            omega
          rw [hne]
          exact ih (s + 1) (c + 1) i r (by omega) (by omega) hidel hor
        | none =>
          simp only [remapGo, if_neg hs, horig]
          have harr : c + (((List.range' (s + 1) (i - (s + 1))).filter
              (fun j => decide (j ∉ deleted))).length + 1) =
              (c + 1) + ((List.range' (s + 1) (i - (s + 1))).filter
                (fun j => decide (j ∉ deleted))).length := by omega
          rw [harr]
          exact ih (s + 1) (c + 1) i r (by omega) (by omega) hidel hor

/-- C5: deleting a non-empty set of page indices removes them in
descending order against the live lists, drops crop-rect entries of
deleted indices, and moves a surviving rect entry at original index i to
the new index equal to the count of surviving indices below i; in
particular, deleting indices 1 and 3 from a 5-page document with rects
at 0..4 leaves rects at exactly 0, 1, 2 in document order. -/
theorem c5_delete_reindex {α : Type} (numPages : ℕ) (deleted : List ℕ)
    (orig : List (ℕ × α)) (i : ℕ) (r : α)
    (hlt : i < numPages) (hdel : i ∉ deleted)
    (hor : orig.lookup i = some r) :
    (remapCropRects numPages deleted orig).lookup
        (survivorCountBelow deleted i) = some r ∧
    remapCropRects 5 [1, 3]
        [(0, (100 : ℕ)), (1, 101), (2, 102), (3, 103), (4, 104)] =
      [(0, 100), (1, 102), (2, 104)] ∧
    deleteAtDescending [3, 1] [(10 : ℕ), 20, 30, 40, 50] = [10, 30, 50] ∧
    deleteAtDescending [3, 1]
        [((100 : ℤ), (150 : ℤ)), (101, 151), (102, 152), (103, 153),
          (104, 154)] =
      [(100, 150), (102, 152), (104, 154)] := by
  refine ⟨?_, by decide, by decide, by decide⟩
  have h := remapGo_lookup orig deleted numPages 0 0 i r (Nat.zero_le i)
    (by omega) hdel hor
  simpa [remapCropRects, survivorCountBelow, List.range_eq_range']
    using h

/-- Witness for C5: page index 2 survives the deletion of indices 1 and 3
from a 5-page crop state and its rect lands at new index 1. -/
theorem c5_delete_reindex_witness :
    (remapCropRects 5 [1, 3]
        [(0, (100 : ℕ)), (1, 101), (2, 102), (3, 103), (4, 104)]).lookup
      (survivorCountBelow [1, 3] 2) = some 102 :=
  (c5_delete_reindex 5 [1, 3]
    [(0, 100), (1, 101), (2, 102), (3, 103), (4, 104)] 2 102
    (by decide) (by decide) (by decide)).1

/-- A document page: its visual bounding rectangle and the rectangles
drawn onto it by whiteout fills.  The derotation matrix is abstracted as
the identity (no claim below depends on it), so a draw records the visual
rectangle. -/
structure Page where
  rect : FitzRect
  draws : List FitzRect
deriving DecidableEq, Repr

/-- A document is its ordered list of pages; fitz serialisation
(tobytes / open on bytes) is modelled as the identity on this list. -/
abbrev Doc := List Page

/-- A user-facing dialog: QMessageBox.warning, .information or
.critical with its text. -/
inductive Msg where
  | warning : String → Msg
  | info : String → Msg
  | critical : String → Msg
deriving DecidableEq, Repr

/-- The active_crop_info dictionary captured by cropSelection
(main_window.py lines 794-798). -/
structure CropInfo where
  rects : List (ℕ × OverlayRect)
  viewMode : ViewMode
  imageDims : List (ℤ × ℤ)
deriving DecidableEq, Repr

/-- The PDFViewer fields the edit operations read and write.  A rendered
page image is modelled by its pixel dimensions; a pending render is
none. -/
structure ViewerState where
  pdfDoc : Option Doc
  images : List (Option (ℤ × ℤ))
  activeCropInfo : Option CropInfo
  undoStack : List Doc
  isProcessing : Bool
  previewPageNum : Option ℕ
  viewMode : ViewMode
  showWhiteoutSuccessMsg : Bool
deriving DecidableEq, Repr

/-- pushUndo (main_window.py lines 322-327): append the current document
snapshot; past 10 entries pop the oldest (index 0). -/
def pushUndoStack (stack : List α) (snapshot : α) : List α :=
  let s := stack ++ [snapshot]
  if s.length > 10 then s.drop 1 else s

/-- undo (main_window.py lines 329-345): silently a no-op on an empty
stack; otherwise pop the most recent snapshot, reopen the document from
it, clear the crop state and start a full re-render (all images
pending). -/
def undo (s : ViewerState) : ViewerState × List Msg :=
  match s.undoStack.getLast? with
  | none => (s, [])
  | some d =>
      ({ s with
          isProcessing := true
          undoStack := s.undoStack.dropLast
          pdfDoc := some d
          activeCropInfo := none
          images := List.replicate d.length none },
        [Msg.info "Undo successful."])

lemma pushUndoStack_getLast {α : Type} (stack : List α) (snap : α) :
    (pushUndoStack stack snap).getLast? = some snap := by
  rw [pushUndoStack]
  by_cases h : (stack ++ [snap]).length > 10
  · rw [if_pos h]
    cases stack with
    | nil => simp at h
    | cons x t =>
      rw [List.cons_append, List.drop_succ_cons, List.drop_zero,
        List.getLast?_concat]
  · rw [if_neg h, List.getLast?_concat]

/-- C6: the undo stack is bounded at depth 10 with FIFO eviction --
pushing 11 snapshots onto an empty stack retains exactly the most recent
10 in push order -- and popping restores the document to the snapshot
that was pushed, both at the stack level and through the undo
transition. -/
theorem c6_undo_stack (b0 b1 b2 b3 b4 b5 b6 b7 b8 b9 b10 : Doc) :
    List.foldl pushUndoStack ([] : List Doc)
        [b0, b1, b2, b3, b4, b5, b6, b7, b8, b9, b10] =
      [b1, b2, b3, b4, b5, b6, b7, b8, b9, b10] ∧
    (∀ (stack : List Doc) (snap : Doc),
      (pushUndoStack stack snap).getLast? = some snap) ∧
    (∀ (s : ViewerState) (d : Doc),
      (undo { s with undoStack := pushUndoStack s.undoStack d }).1.pdfDoc
        = some d) := by
  refine ⟨?_, fun stack snap => pushUndoStack_getLast stack snap, ?_⟩
  · simp [pushUndoStack, List.foldl]
  · intro s d
    simp [undo, pushUndoStack_getLast]

/-- The overlay view a whiteout request was issued from (the sender of
the whiteoutRequested signal). -/
inductive Sender where
  | singleView : Sender
  | oddView : Sender
  | evenView : Sender
deriving DecidableEq, Repr

/-- The inline single-page-preview translation of applyWhiteout
(main_window.py lines 852-863): the rect is relative to the page's own
image, so scale and translate with NO centering offset and NO clamping. -/
def previewTranslate (rect : OverlayRect) (pageDims : ℤ × ℤ)
    (ref : FitzRect) : FitzRect :=
  let sx := scaleFactor ref.width pageDims.1
  let sy := scaleFactor ref.height pageDims.2
  let cx0 := rect.x * sx + ref.x0
  let cy0 := rect.y * sy + ref.y0
  ⟨cx0, cy0, cx0 + rect.w * sx, cy0 + rect.h * sy⟩

/-- The per-page draw loop of applyWhiteout (main_window.py lines
846-881): draw the translated rectangle on each target page in turn; an
out-of-range page index raises, which aborts the loop with the pages
already processed kept (the Bool records success). -/
def whiteoutLoop (rect : OverlayRect) (dims : List (ℤ × ℤ))
    (vm : ViewMode) (maxDims : ℤ × ℤ) (preview : Option ℕ) :
    List ℕ → Doc → Doc × Bool
  | [], d => (d, true)
  | p :: ps, d =>
    if h : p < d.length then
      if h2 : p < dims.length then
        let page := d.get ⟨p, h⟩
        let vr := match preview with
          | some _ => previewTranslate rect (dims.get ⟨p, h2⟩) page.rect
          | none => translateRectToPdfCoords rect (dims.get ⟨p, h2⟩)
              page.rect p vm maxDims maxDims maxDims
        whiteoutLoop rect dims vm maxDims preview ps
          (d.set p { page with draws := page.draws ++ [vr] })
      else (d, false)
    else (d, false)

/-- applyWhiteout (main_window.py lines 828-888): compute the canvas max
over the present rasters, push an undo snapshot, draw the fill rectangle
on every target page (the overlay path passes max_dims for all three
canvas arguments of the translator), then start a full re-render; on a
raised error the partially drawn document is kept and a critical dialog
shown. -/
def applyWhiteout (s : ViewerState) (doc : Doc) (rect : OverlayRect)
    (targetPages : List ℕ) : ViewerState × List Msg :=
  let validImages := s.images.filterMap id
  if validImages.isEmpty then (s, [])
  else
    let maxW := pyMaxList (validImages.map Prod.fst)
    let maxH := pyMaxList (validImages.map Prod.snd)
    let allPageDims := s.images.map (fun o => o.getD (0, 0))
    let stack2 := pushUndoStack s.undoStack doc
    match whiteoutLoop rect allPageDims s.viewMode (maxW, maxH)
        s.previewPageNum targetPages doc with
    | (newDoc, true) =>
        ({ s with
            isProcessing := true
            undoStack := stack2
            pdfDoc := some newDoc
            showWhiteoutSuccessMsg := true
            images := List.replicate newDoc.length none }, [])
    | (newDoc, false) =>
        ({ s with
            isProcessing := false
            undoStack := stack2
            pdfDoc := some newDoc },
          [Msg.critical "Failed to apply whiteout"])

/-- handleWhiteoutRequest (main_window.py lines 803-826): silently
ignored while processing or with no document; warned and refused while a
crop is active; otherwise the target page set is the preview page, all
pages, or one parity group by sender (the stride-2 ranges are modelled
as parity filters of the full range), and an empty target set is
silently ignored. -/
def handleWhiteoutRequest (s : ViewerState) (rect : OverlayRect)
    (sender : Sender) : ViewerState × List Msg :=
  if s.isProcessing then (s, [])
  else
    match s.pdfDoc with
    | none => (s, [])
    | some doc =>
      match s.activeCropInfo with
      | some _ =>
          (s, [Msg.warning
            "Cannot apply whiteout while a crop is active. Please Reset Crop first."])
      | none =>
        let targetPages : List ℕ :=
          match s.previewPageNum with
          | some p => [p]
          | none =>
            match sender with
            | .singleView => List.range doc.length
            | .oddView =>
                (List.range doc.length).filter (fun i => decide (i % 2 = 0))
            | .evenView =>
                (List.range doc.length).filter (fun i => decide (i % 2 = 1))
        if targetPages.isEmpty then (s, [])
        else applyWhiteout s doc rect targetPages

/-- A reachable viewer state with a crop active while a re-render batch
is still in flight (is_processing set): cropSelection itself leaves the
viewer in exactly this situation until the batch finishes. -/
def busyCropActiveState : ViewerState :=
  { pdfDoc := some [⟨⟨0, 0, 100, 100⟩, []⟩]
    images := [some (50, 50)]
    activeCropInfo := some ⟨[(0, ⟨0, 0, 10, 10⟩)], ViewMode.all, [(50, 50)]⟩
    undoStack := []
    isProcessing := true
    previewPageNum := none
    viewMode := ViewMode.all
    showWhiteoutSuccessMsg := false }

/-- Counterexample to C7 as stated: a whiteout request issued while a
crop is active but a render batch is still processing is silently
dropped -- no precondition warning dialog is produced (the is_processing
guard runs before the crop check). -/
theorem c7_whiteout_crop_active_counterexample :
    busyCropActiveState.activeCropInfo ≠ none ∧
    handleWhiteoutRequest busyCropActiveState ⟨0, 0, 5, 5⟩ Sender.singleView
      = (busyCropActiveState, []) := by
  exact ⟨by simp [busyCropActiveState], rfl⟩

/-- C7 (amended): a whiteout request issued while a crop is active, the
viewer idle and a document open fails with the precondition warning and
changes nothing -- no page is drawn on, no undo snapshot is pushed, no
state field is modified; while a batch is processing (or with no
document) the request is instead silently dropped, also with no
changes. -/
theorem c7_whiteout_crop_active_warns (s : ViewerState)
    (rect : OverlayRect) (sender : Sender) (c : CropInfo)
    (hproc : s.isProcessing = false) (hdoc : s.pdfDoc ≠ none)
    (hcrop : s.activeCropInfo = some c) :
    handleWhiteoutRequest s rect sender =
      (s, [Msg.warning
        "Cannot apply whiteout while a crop is active. Please Reset Crop first."]) := by
  obtain ⟨doc, hd⟩ : ∃ d, s.pdfDoc = some d := by
    cases h : s.pdfDoc with
    | none => exact absurd h hdoc
    | some d => exact ⟨d, rfl⟩
  simp [handleWhiteoutRequest, hproc, hd, hcrop]

/-- The idle counterpart of the busy state above: same document and
active crop, no batch in flight. -/
def idleCropActiveState : ViewerState :=
  { pdfDoc := some [⟨⟨0, 0, 100, 100⟩, []⟩]
    images := [some (50, 50)]
    activeCropInfo := some ⟨[(0, ⟨0, 0, 10, 10⟩)], ViewMode.all, [(50, 50)]⟩
    undoStack := []
    isProcessing := false
    previewPageNum := none
    viewMode := ViewMode.all
    showWhiteoutSuccessMsg := false }

/-- Witness for C7 (amended) at the idle crop-active state. -/
theorem c7_whiteout_crop_active_warns_witness :
    handleWhiteoutRequest idleCropActiveState ⟨0, 0, 5, 5⟩ Sender.singleView
      = (idleCropActiveState, [Msg.warning
        "Cannot apply whiteout while a crop is active. Please Reset Crop first."]) :=
  c7_whiteout_crop_active_warns idleCropActiveState ⟨0, 0, 5, 5⟩
    Sender.singleView ⟨[(0, ⟨0, 0, 10, 10⟩)], ViewMode.all, [(50, 50)]⟩
    rfl (by simp [idleCropActiveState]) rfl

/-- A loaded one-page document with an empty undo stack. -/
def emptyUndoState : ViewerState :=
  { pdfDoc := some [⟨⟨0, 0, 200, 300⟩, []⟩]
    images := [some (100, 150)]
    activeCropInfo := none
    undoStack := []
    isProcessing := false
    previewPageNum := none
    viewMode := ViewMode.oddEven
    showWhiteoutSuccessMsg := false }

/-- Counterexample to C9 as stated: an undo on an empty stack produces
NO user-facing dialog at all -- it is a silent early return, not a
reported no-op warning (the state is indeed unchanged). -/
theorem c9_empty_undo_counterexample :
    emptyUndoState.undoStack = [] ∧
    undo emptyUndoState = (emptyUndoState, []) := by
  exact ⟨rfl, rfl⟩

/-- C9 (amended): an undo attempted with an empty undo stack is a silent
no-op -- no dialog is shown and the document, the crop state, the images
and the undo stack are all left unchanged. -/
theorem c9_empty_undo_noop (s : ViewerState) (h : s.undoStack = []) :
    undo s = (s, []) := by
  simp [undo, h]

/-- A second empty-stack state, this one mid-session with a crop
active. -/
def emptyUndoCropState : ViewerState :=
  { pdfDoc := some [⟨⟨0, 0, 200, 300⟩, []⟩, ⟨⟨0, 0, 200, 300⟩, []⟩]
    images := [some (100, 150), some (100, 150)]
    activeCropInfo := some ⟨[(0, ⟨1, 1, 8, 8⟩)], ViewMode.oddEven,
      [(100, 150), (100, 150)]⟩
    undoStack := []
    isProcessing := false
    previewPageNum := some 1
    viewMode := ViewMode.oddEven
    showWhiteoutSuccessMsg := false }

/-- Witness for C9 (amended). -/
theorem c9_empty_undo_noop_witness :
    undo emptyUndoCropState = (emptyUndoCropState, []) :=
  c9_empty_undo_noop emptyUndoCropState rfl

/-- The image_dims list stored by cropSelection (main_window.py line
797): the pixel dimensions of exactly the pages whose raster is present,
in page order -- absent rasters are filtered out, not recorded as
placeholders.  An image being modelled by its dimension pair, the
comprehension is a filterMap of the identity. -/
def cropImageDims (images : List (Option (ℤ × ℤ))) : List (ℤ × ℤ) :=
  images.filterMap id

/-- C10: when every page's raster is present at commit time, the stored
dimension list of the crop state has exactly one entry per page, and
entry i is page i's raster dimensions -- the alignment that keeps the
direct index lookups of the render and save paths
(all_page_dims[page_num]) in range and index-aligned. -/
theorem c10_crop_dims_aligned (images : List (Option (ℤ × ℤ)))
    (hall : ∀ o ∈ images, o.isSome) :
    (cropImageDims images).length = images.length ∧
    ∀ (i : ℕ) (hi : i < images.length),
      (cropImageDims images)[i]? = images.get ⟨i, hi⟩ := by
  induction images with
  | nil => exact ⟨rfl, fun i hi => absurd hi (by simp)⟩
  | cons o t ih =>
    have ho : o.isSome := hall o (List.mem_cons_self o t)
    obtain ⟨d, rfl⟩ := Option.isSome_iff_exists.mp ho
    have ht := ih (fun o2 h2 => hall o2 (List.mem_cons_of_mem _ h2))
    refine ⟨?_, ?_⟩
    · simpa [cropImageDims] using ht.1
    · intro i hi
      cases i with
      | zero => simp [cropImageDims]
      | succ j =>
        have hj : j < t.length := by simpa using hi
        simpa [cropImageDims] using ht.2 j hj

/-- Witness for C10: a fully rendered two-page document stores a
two-entry dimension list whose first entry is page 0's raster size. -/
theorem c10_crop_dims_aligned_witness :
    (cropImageDims [some ((100 : ℤ), (150 : ℤ)), some (120, 140)]).length
        = 2 ∧
    (cropImageDims [some ((100 : ℤ), (150 : ℤ)), some (120, 140)])[0]? =
      [some ((100 : ℤ), (150 : ℤ)), some (120, 140)].get ⟨0, by decide⟩ := by
  have h := c10_crop_dims_aligned
    [some ((100 : ℤ), (150 : ℤ)), some (120, 140)] (by decide)
  exact ⟨h.1, h.2 0 (by decide)⟩

/-- Witness for C3 at the C1 scenario geometry: the inverse map recovers
the overlay rectangle (20, 20, 40, 40) exactly. -/
theorem c3_roundtrip_witness :
    inverseScaleMap
      (translateRectToPdfCoords ⟨20, 20, 40, 40⟩ (100, 150)
        ⟨0, 0, 300, 450⟩ 0 ViewMode.all (120, 150) (0, 0) (0, 0))
      (100, 150) ⟨0, 0, 300, 450⟩ (120, 150) = ⟨20, 20, 40, 40⟩ :=
  c3_roundtrip ⟨20, 20, 40, 40⟩ 100 150 120 150 ⟨0, 0, 300, 450⟩ 0
    (0, 0) (0, 0) (by decide) (by decide)
    (by norm_num [FitzRect.width]) (by norm_num [FitzRect.height])
    (by norm_num) (by norm_num)
    (by norm_num [centerOffset, Int.fdiv])
    (by norm_num [centerOffset, Int.fdiv])
    (by norm_num [centerOffset, Int.fdiv])
    (by norm_num [centerOffset, Int.fdiv])

/-- Witness for C4 at the C1 scenario geometry. -/
theorem c4_translate_clamped_ordered_witness :
    let r := translateRectToPdfCoords ⟨20, 20, 40, 40⟩ (100, 150)
      ⟨0, 0, 300, 450⟩ 0 ViewMode.all (120, 150) (0, 0) (0, 0)
    (((0 : ℚ) ≤ r.x0 ∧ r.x0 ≤ 300) ∧ ((0 : ℚ) ≤ r.x1 ∧ r.x1 ≤ 300) ∧
      ((0 : ℚ) ≤ r.y0 ∧ r.y0 ≤ 450) ∧ ((0 : ℚ) ≤ r.y1 ∧ r.y1 ≤ 450) ∧
      r.x0 ≤ r.x1 ∧ r.y0 ≤ r.y1) :=
  c4_translate_clamped_ordered ⟨20, 20, 40, 40⟩ (100, 150)
    ⟨0, 0, 300, 450⟩ 0 ViewMode.all (120, 150) (0, 0) (0, 0)
    (by norm_num) (by norm_num) (by norm_num) (by norm_num)

/-- Witness for C8: degenerate 0-width and 0-height pages at the
scenario page box. -/
theorem c8_degenerate_page_witness :
    scaleFactor (FitzRect.width ⟨0, 0, 300, 450⟩) 0 = 0 ∧
    scaleFactor (FitzRect.height ⟨0, 0, 300, 450⟩) 0 = 0 ∧
    ((translateRectToPdfCoords ⟨20, 20, 40, 40⟩ (0, 9) ⟨0, 0, 300, 450⟩
        0 ViewMode.all (120, 150) (0, 0) (0, 0)).x0 = 0 ∧
      (translateRectToPdfCoords ⟨20, 20, 40, 40⟩ (0, 9) ⟨0, 0, 300, 450⟩
        0 ViewMode.all (120, 150) (0, 0) (0, 0)).x1 = 0) ∧
    ((translateRectToPdfCoords ⟨20, 20, 40, 40⟩ (7, 0) ⟨0, 0, 300, 450⟩
        0 ViewMode.all (120, 150) (0, 0) (0, 0)).y0 = 0 ∧
      (translateRectToPdfCoords ⟨20, 20, 40, 40⟩ (7, 0) ⟨0, 0, 300, 450⟩
        0 ViewMode.all (120, 150) (0, 0) (0, 0)).y1 = 0) :=
  c8_degenerate_page ⟨20, 20, 40, 40⟩ 7 9 ⟨0, 0, 300, 450⟩ 0
    ViewMode.all (120, 150) (0, 0) (0, 0) (by norm_num) (by norm_num)
